import Mathlib

/-!
Verification of the boundary-parsing and sheet-materialization pipeline of
`technical-sheets-extractor` (src/src/ai_processor/pipeline_modal.py and
src/src/ai_processor/document_processor.py), shallowly embedded in Lean.

Modelling conventions:
* Python strings are `List Char` (or `String` converted via `toList`).
* JSON values (`json.loads` results) are the inductive `Json`; Python/JSON
  numbers are modelled as exact rationals `ℚ` (the spec's numeric examples
  are exact in both float and rational arithmetic).
* Python exceptions are `Except Unit`; a caught exception corresponds to the
  matching `Except.error` branch at the catch site.
* `dict` objects are association lists with unique keys (duplicate keys are
  collapsed last-value-wins at decode time, as `json.loads` does).
* Python `bool` values, which are `int` instances, are coerced to `0`/`1`
  where the code does integer arithmetic on them.
-/

attribute [local semireducible] Rat.mul Rat.add Rat.sub Rat.inv Rat.ofScientific

/-- JSON values, the result type of `json.loads`. -/
inductive Json where
  | null : Json
  | bool : Bool → Json
  | num : ℚ → Json
  | str : String → Json
  | arr : List Json → Json
  | obj : List (String × Json) → Json

namespace Json

/-- JSON insignificant whitespace (also what Python `str.strip` removes on
the inputs we model). -/
def isWs (c : Char) : Bool :=
  c = ' ' || c = '\t' || c = '\n' || c = '\r'

/-- Drop leading whitespace. -/
def skipWs : List Char → List Char
  | [] => []
  | c :: cs => if isWs c then skipWs cs else c :: cs

/-- Value of a hexadecimal digit. -/
def hexVal (c : Char) : Option Nat :=
  if '0' ≤ c ∧ c ≤ '9' then some (c.toNat - '0'.toNat)
  else if 'a' ≤ c ∧ c ≤ 'f' then some (c.toNat - 'a'.toNat + 10)
  else if 'A' ≤ c ∧ c ≤ 'F' then some (c.toNat - 'A'.toNat + 10)
  else none

/-- Body of a JSON string after the opening quote: returns the decoded
characters and the input following the closing quote. -/
def parseStrBody : List Char → Option (List Char × List Char)
  | [] => none
  | '"' :: rest => some ([], rest)
  | '\\' :: 'u' :: a :: b :: c :: d :: rest =>
    match hexVal a, hexVal b, hexVal c, hexVal d with
    | some x, some y, some z, some w =>
      (parseStrBody rest).map
        (fun p => (Char.ofNat (((x * 16 + y) * 16 + z) * 16 + w) :: p.1, p.2))
    | _, _, _, _ => none
  | '\\' :: e :: rest =>
    match (if e = '"' then some '"'
           else if e = '\\' then some '\\'
           else if e = '/' then some '/'
           else if e = 'b' then some (Char.ofNat 8)
           else if e = 'f' then some (Char.ofNat 12)
           else if e = 'n' then some '\n'
           else if e = 'r' then some '\r'
           else if e = 't' then some '\t'
           else none) with
    | some c => (parseStrBody rest).map (fun p => (c :: p.1, p.2))
    | none => none
  | c :: rest => (parseStrBody rest).map (fun p => (c :: p.1, p.2))

/-- Numeric value of a digit string. -/
def digitsToNat (ds : List Char) : Nat :=
  ds.foldl (fun n c => n * 10 + (c.toNat - '0'.toNat)) 0

/-- Split a leading run of decimal digits. -/
def spanDigits (cs : List Char) : List Char × List Char :=
  (cs.takeWhile Char.isDigit, cs.dropWhile Char.isDigit)

/-- Optional exponent part `e[+-]?digits`; returns the exponent (default 0)
and the rest, or `none` if an exponent marker is present but malformed. -/
def parseExponent (cs : List Char) : Option (Int × List Char) :=
  match cs with
  | 'e' :: t | 'E' :: t =>
    let (neg, t1) := match t with
      | '-' :: u => (true, u)
      | '+' :: u => (false, u)
      | _ => (false, t)
    let (ds, t2) := spanDigits t1
    if ds.isEmpty then none
    else some ((if neg then -(digitsToNat ds : Int) else (digitsToNat ds : Int)), t2)
  | _ => some (0, cs)

/-- Scale a rational by a (possibly negative) power of ten. -/
def scalePow10 (q : ℚ) (e : Int) : ℚ :=
  if 0 ≤ e then q * (10 : ℚ) ^ e.toNat else q / (10 : ℚ) ^ (-e).toNat

/-- JSON number grammar `-?(0|[1-9][0-9]*)(\.[0-9]+)?([eE][+-]?[0-9]+)?`,
evaluated exactly in `ℚ`. -/
def parseNumber (cs : List Char) : Option (ℚ × List Char) :=
  let (neg, cs1) := match cs with
    | '-' :: t => (true, t)
    | _ => (false, cs)
  let (ds, cs2) := spanDigits cs1
  if ds.isEmpty then none
  else if 1 < ds.length ∧ ds.headI = '0' then none
  else
    let p := match cs2 with
      | '.' :: t => some (spanDigits t)
      | _ => none
    match p with
    | some (fracDigits, cs3) =>
      if fracDigits.isEmpty then none
      else
        (match parseExponent cs3 with
         | none => none
         | some (e, rest) =>
           let mantissa : ℚ :=
             (digitsToNat ds : ℚ) + (digitsToNat fracDigits : ℚ) / (10 : ℚ) ^ fracDigits.length
           let v := scalePow10 mantissa e
           some ((if neg then -v else v), rest))
    | none =>
      match parseExponent cs2 with
      | none => none
      | some (e, rest) =>
        let v := scalePow10 (digitsToNat ds : ℚ) e
        some ((if neg then -v else v), rest)

/-- Insert a key into an association list, overwriting the value of an
existing key in place (Python `dict` semantics for duplicate keys). -/
def insertKey (k : String) (v : Json) : List (String × Json) → List (String × Json)
  | [] => [(k, v)]
  | (k', v') :: rest => if k' = k then (k', v) :: rest else (k', v') :: insertKey k v rest

/-- Collapse duplicate keys left-to-right, last value wins. -/
def dedupKeys (fs : List (String × Json)) : List (String × Json) :=
  fs.foldl (fun acc kv => insertKey kv.1 kv.2 acc) []

mutual

/-- Fueled recursive-descent JSON value reader. -/
def parseVal : Nat → List Char → Option (Json × List Char)
  | 0, _ => none
  | fuel + 1, cs =>
    match skipWs cs with
    | 'n' :: 'u' :: 'l' :: 'l' :: rest => some (.null, rest)
    | 't' :: 'r' :: 'u' :: 'e' :: rest => some (.bool true, rest)
    | 'f' :: 'a' :: 'l' :: 's' :: 'e' :: rest => some (.bool false, rest)
    | '"' :: rest => (parseStrBody rest).map (fun p => (.str ⟨p.1⟩, p.2))
    | '[' :: rest =>
      (match skipWs rest with
       | ']' :: r2 => some (.arr [], r2)
       | _ => (parseItems fuel rest).map (fun p => (.arr p.1, p.2)))
    | '{' :: rest =>
      (match skipWs rest with
       | '}' :: r2 => some (.obj [], r2)
       | _ => (parseMembers fuel rest).map (fun p => (.obj (dedupKeys p.1), p.2)))
    | cs' => (parseNumber cs').map (fun p => (.num p.1, p.2))

/-- One-or-more comma-separated array items up to the closing bracket. -/
def parseItems : Nat → List Char → Option (List Json × List Char)
  | 0, _ => none
  | fuel + 1, cs =>
    match parseVal fuel cs with
    | none => none
    | some (v, r) =>
      match skipWs r with
      | ',' :: r2 =>
        (match parseItems fuel r2 with
         | none => none
         | some (vs, r3) => some (v :: vs, r3))
      | ']' :: r2 => some ([v], r2)
      | _ => none

/-- One-or-more comma-separated object members up to the closing brace. -/
def parseMembers : Nat → List Char → Option (List (String × Json) × List Char)
  | 0, _ => none
  | fuel + 1, cs =>
    match skipWs cs with
    | '"' :: r =>
      (match parseStrBody r with
       | none => none
       | some (k, r1) =>
         match skipWs r1 with
         | ':' :: r2 =>
           (match parseVal fuel r2 with
            | none => none
            | some (v, r3) =>
              match skipWs r3 with
              | ',' :: r4 =>
                (match parseMembers fuel r4 with
                 | none => none
                 | some (ms, r5) => some ((⟨k⟩, v) :: ms, r5))
              | '}' :: r4 => some ([(⟨k⟩, v)], r4)
              | _ => none)
         | _ => none)
    | _ => none

end

/-- Model of Python `json.loads`: decode exactly one JSON document with
optional surrounding whitespace; `none` models a raised `JSONDecodeError`. -/
def loads (cs : List Char) : Option Json :=
  match parseVal (2 * cs.length + 2) cs with
  | some (v, rest) => if (skipWs rest).isEmpty then some v else none
  | none => none

end Json

/-! ## Python coercion primitives used by `Pipeline._parse_boundaries` -/

/-- Strip leading and trailing whitespace (Python `str.strip()` on the
ASCII whitespace the inputs contain). -/
def stripBoth (cs : List Char) : List Char :=
  ((cs.dropWhile Json.isWs).reverse.dropWhile Json.isWs).reverse

/-- Python `int(s)` on a string: strip whitespace, optional sign, then a
nonempty run of decimal digits; `none` models a raised `ValueError`.
(Underscore digit grouping and non-ASCII digits are not modelled.) -/
def pyIntOfChars (cs0 : List Char) : Option Int :=
  let cs := stripBoth cs0
  let (neg, ds) := match cs with
    | '-' :: t => (true, t)
    | '+' :: t => (false, t)
    | _ => (false, cs)
  if ds.isEmpty then none
  else if ds.all Char.isDigit then
    some (if neg then -(Json.digitsToNat ds : Int) else (Json.digitsToNat ds : Int))
  else none

/-- Python `float(s)` on a string: strip whitespace, optional sign, decimal
mantissa with at least one digit, optional exponent; the value is modelled
exactly in `ℚ`. (`inf`/`nan` literals and underscore grouping are not
modelled; no claim depends on them.) -/
def pyFloatOfChars (cs0 : List Char) : Option ℚ :=
  let cs := stripBoth cs0
  let (neg, cs1) := match cs with
    | '-' :: t => (true, t)
    | '+' :: t => (false, t)
    | _ => (false, cs)
  let (ip, cs2) := Json.spanDigits cs1
  let (fp, cs3) := match cs2 with
    | '.' :: t => Json.spanDigits t
    | _ => ([], cs2)
  if ip.isEmpty ∧ fp.isEmpty then none
  else
    match Json.parseExponent cs3 with
    | none => none
    | some (e, rest) =>
      if rest.isEmpty then
        let m : ℚ := (Json.digitsToNat ip : ℚ) + (Json.digitsToNat fp : ℚ) / (10 : ℚ) ^ fp.length
        some (if neg then -(Json.scalePow10 m e) else Json.scalePow10 m e)
      else none

/-- Truncation toward zero, the behaviour of Python `int(float)`. -/
def ratTrunc (q : ℚ) : Int :=
  if 0 ≤ q then ⌊q⌋ else -⌊-q⌋

/-- Python `int(p)` applied to a decoded JSON value (`int` instances,
including `bool`, pass through; floats truncate; strings parse; everything
else raises, modelled as `none`). -/
def pyInt : Json → Option Int
  | .num q => some (ratTrunc q)
  | .bool b => some (if b then 1 else 0)
  | .str s => pyIntOfChars s.toList
  | _ => none

/-- Python `float(v)` applied to a decoded JSON value; `none` models a
raised `ValueError`/`TypeError`. -/
def pyFloat : Json → Option ℚ
  | .num q => some q
  | .bool b => some (if b then 1 else 0)
  | .str s => pyFloatOfChars s.toList
  | _ => none

/-- Python `for p in v` over a decoded JSON value: lists yield elements,
strings yield one-character strings, dicts yield their keys; other values
raise `TypeError`, modelled as `none`. -/
def pyIter : Json → Option (List Json)
  | .arr xs => some xs
  | .str s => some (s.toList.map fun c => Json.str ⟨[c]⟩)
  | .obj fs => some (fs.map fun kv => Json.str kv.1)
  | _ => none

/-- Run a fallible coercion over a list, failing on the first element that
raises: the semantics of a Python list comprehension whose body can throw. -/
def optMapList (f : α → Option β) : List α → Option (List β)
  | [] => some []
  | x :: xs =>
    match f x with
    | none => none
    | some y =>
      match optMapList f xs with
      | none => none
      | some ys => some (y :: ys)

/-- Python `s.split(",")`. -/
def splitComma : List Char → List (List Char)
  | [] => [[]]
  | c :: cs =>
    let r := splitComma cs
    if c = ',' then [] :: r
    else
      match r with
      | h :: t => (c :: h) :: t
      | [] => [[c]]

/-- Lookup in a decoded JSON object (keys are unique after `dedupKeys`);
models both `k in b` and `b[k]` / `b.get(k)`. -/
def dictLookup (fs : List (String × Json)) (k : String) : Option Json :=
  (fs.find? (fun kv => kv.1 == k)).map (fun kv => kv.2)

/-! ## `Pipeline._parse_boundaries` (pipeline_modal.py lines 59-137) -/

namespace Pipeline

/-- One normalized boundary record, as appended at pipeline_modal.py
lines 120-127: a dict with exactly the keys `product`, `pages`,
`confidence`, `reason`. -/
structure Boundary where
  product : Json
  pages : List Int
  confidence : ℚ
  reason : Json

/-- Lines 85-91: default confidence `0.7`, overwritten by a successful
`float(...)` coercion of the `confidence` value when the key is present. -/
def confidenceOf (fs : List (String × Json)) : ℚ :=
  match dictLookup fs "confidence" with
  | none => 7 / 10
  | some v => (pyFloat v).getD (7 / 10)

/-- Lines 116-118: `[int(p) if not isinstance(p, int) else p for p in pages]`;
a failing element raises out of the element loop (only the outermost
`except` catches it). -/
def coercePages (xs : List Json) : Except Unit (List Int) :=
  match optMapList pyInt xs with
  | some l => Except.ok l
  | none => Except.error ()

/-- Lines 96-118: the `pages` value of a kept record. A native list is
coerced elementwise; a string is `json.loads`-decoded (then iterated and
coerced), falling back to comma-splitting with `int` on each token, and to
`[]` if that raises `ValueError`; any other type leaves `pages = []`.
A coercion `TypeError`/`ValueError` outside the two inner handlers is
`Except.error`. -/
def pagesFromField (v : Json) : Except Unit (List Int) :=
  match v with
  | .arr xs => coercePages xs
  | .str s =>
    (match Json.loads s.toList with
     | some j =>
       (match pyIter j with
        | some xs => coercePages xs
        | none => Except.error ())
     | none =>
       match optMapList pyIntOfChars (splitComma s.toList) with
       | some ns => Except.ok ns
       | none => Except.ok [])
  | _ => Except.ok []

/-- The `pages` list of a record: `[]` when the key is absent, otherwise
the outcome of `pagesFromField`. -/
def pagesOutcome (fs : List (String × Json)) : Except Unit (List Int) :=
  match dictLookup fs "pages" with
  | some v => pagesFromField v
  | none => Except.ok []

/-- Lines 80-127: processing of one element of the decoded array.
`ok none` = skipped (non-dict, or confidence below threshold);
`ok (some b)` = appended to `normalized`; `error` = an uncaught exception
escaping to the outermost handler. -/
def processElem (t : ℚ) (j : Json) : Except Unit (Option Boundary) :=
  match j with
  | .obj fs =>
    let conf := confidenceOf fs
    if t ≤ conf then
      match pagesOutcome fs with
      | Except.ok pgs =>
        Except.ok (some
          { product := (dictLookup fs "product").getD (Json.str "Unnamed Product")
            pages := pgs
            confidence := conf
            reason := (dictLookup fs "reason").getD (Json.str "") })
      | Except.error e => Except.error e
    else Except.ok none
  | _ => Except.ok none

/-- The `for b in boundaries` loop building `normalized` in order. -/
def parseElems (t : ℚ) : List Json → Except Unit (List Boundary)
  | [] => Except.ok []
  | j :: rest =>
    match processElem t j with
    | Except.error e => Except.error e
    | Except.ok none => parseElems t rest
    | Except.ok (some b) =>
      match parseElems t rest with
      | Except.error e => Except.error e
      | Except.ok bs => Except.ok (b :: bs)

/-- Python `s.find(c)`: index of the first occurrence. -/
def findIdxChar (c : Char) : List Char → Option Nat
  | [] => none
  | x :: xs => if x = c then some 0 else (findIdxChar c xs).map (· + 1)

/-- Python `s.rfind(c)`: index of the last occurrence. -/
def rfindIdxChar (c : Char) (cs : List Char) : Option Nat :=
  (findIdxChar c cs.reverse).map (fun i => cs.length - 1 - i)

/-- `Pipeline._parse_boundaries` (lines 59-137): locate the substring from
the first `[` to the last `]`, `json.loads` it, and run the normalization
loop; every raised exception is caught by the outermost handler and
degrades to `[]`. -/
def parseBoundaries (t : ℚ) (response : List Char) : List Boundary :=
  match findIdxChar '[' response, rfindIdxChar ']' response with
  | some s, some e =>
    if s < e then
      match Json.loads ((response.drop s).take (e + 1 - s)) with
      | some (Json.arr xs) =>
        (match parseElems t xs with
         | Except.ok out => out
         | Except.error _ => [])
      | some _ => []
      | none => []
    else []
  | _, _ => []

end Pipeline

/-! ## `Pipeline.extract_sheets_to_pdf` (pipeline_modal.py lines 256-354) -/

namespace Pipeline

/-- Line 301: `sorted([p - 1 for p in page_list if p > 0 and p <= len(doc)])`.
Python `sorted` is an ascending stable sort and performs no deduplication;
it is modelled by `List.insertionSort`. -/
def validPages (totalPages : Nat) (pageList : List Int) : List Nat :=
  List.insertionSort (· ≤ ·)
    ((pageList.filter (fun p => decide (0 < p) && decide (p ≤ (totalPages : Int)))).map
      (fun p => (p - 1).toNat))

/-- The per-sheet loop of lines 290-344. `totalPages = len(doc)`;
`saveFails i` injects a raised exception from `new_doc.save` for the sheet
at `enumerate` index `i` (the method installs no handler, so the exception
propagates and the whole call raises, modelled as `Except.error`). Each
produced output is the list of 0-indexed source pages copied into it, in
copy order (lines 312-313). -/
def extractLoop (totalPages : Nat) (saveFails : Nat → Bool) :
    Nat → List Boundary → Except Unit (List (List Nat))
  | _, [] => Except.ok []
  | i, b :: rest =>
    if b.pages.isEmpty then extractLoop totalPages saveFails (i + 1) rest
    else
      let pl := validPages totalPages b.pages
      if pl.isEmpty then extractLoop totalPages saveFails (i + 1) rest
      else if saveFails i then Except.error ()
      else
        match extractLoop totalPages saveFails (i + 1) rest with
        | Except.error e => Except.error e
        | Except.ok outs => Except.ok (pl :: outs)

/-- `extract_sheets_to_pdf` materialization over already-parsed sheets:
the `enumerate(sheets)` loop started at index 0 (the early return for
`sheets = []` coincides with the loop on `[]`). -/
def extractSheetsToPdfModel (totalPages : Nat) (saveFails : Nat → Bool)
    (sheets : List Boundary) : Except Unit (List (List Nat)) :=
  extractLoop totalPages saveFails 0 sheets

/-- Content of one output PDF, given the source document as its list of
pages: the selected source pages in copy order. -/
def outputContents (doc : List Nat) (pl : List Nat) : List Nat :=
  pl.map (fun i => doc.getD i 0)

/-! ### Document paths used across one `extract_sheets_to_pdf` run -/

/-- Python `os.path.basename`. -/
def osBasename (p : String) : String :=
  ⟨(p.toList.reverse.takeWhile (fun c => c ≠ '/')).reverse⟩

/-- document_processor.py line 157:
`os.path.join(OUTPUT_DIR, f"enhanced_{os.path.basename(catalog_pdf_path)}")`,
the location `add_page_identifiers` saves the page-stamped copy to. -/
def enhancedPdfPath (outputDir pdfPath : String) : String :=
  outputDir ++ "/" ++ ("enhanced_" ++ osBasename pdfPath)

/-- The three document references made during one
`extract_sheets_to_pdf(pdf_path)` call. -/
structure RunPaths where
  stampedCopy : String
  ocrInput : String
  materializationSource : String

/-- Data flow of one run, read off the source: `extract_sheets` (line 180)
obtains `enhanced_pdf_path` from `document_processor_main`, which stamps
page identifiers onto a copy saved at `enhancedPdfPath` (document_processor.py
lines 155-160) and passes it to `ocr_analyzer.process_file` (line 182);
`extract_sheets_to_pdf` then reopens `fitz.open(pdf_path)` — the original
argument — at line 286 to copy output pages from. -/
def extractRunPaths (outputDir pdfPath : String) : RunPaths :=
  let enhanced := enhancedPdfPath outputDir pdfPath
  { stampedCopy := enhanced
    ocrInput := enhanced
    materializationSource := pdfPath }

end Pipeline

/-! ## Concrete inputs used by witnesses and counterexamples -/

namespace Pipeline

/-- Skipped/kept view of one array element: `some` exactly when the element
is appended to `normalized`. -/
def normalizeOne (t : ℚ) (j : Json) : Option Boundary :=
  match processElem t j with
  | Except.ok (some b) => some b
  | _ => none

/-- A boundary record with the given page list (confidence 1). -/
def bPages (ps : List Int) : Boundary :=
  { product := Json.str "P", pages := ps, confidence := 1, reason := Json.str "" }

/-- The spec's §8 tolerant-parsing scenario response. -/
def respT22 : List Char :=
  "Here you go:\n[\x7b\"product\": \"T22\", \"confidence\": \"0.9\", \"pages\": \"[1,2]\", \"reason\": \"header match\"\x7d]\nThanks!".toList

/-- The spec's §8 no-bracket-pair response. -/
def respNoBrackets : List Char := "No boundaries found".toList

/-- A response holding one well-formed boundary object. -/
def respGoodOnly : List Char := "[\x7b\"product\": \"A\", \"pages\": [1]\x7d]".toList

/-- The same response followed by an object whose `pages` string decodes to
a JSON number: iterating it raises `TypeError` past both inner handlers. -/
def respGoodThenBadPages : List Char :=
  "[\x7b\"product\": \"A\", \"pages\": [1]\x7d, \x7b\"pages\": \"5\"\x7d]".toList

/-- A response holding two literally identical boundary objects. -/
def respDup : List Char :=
  "[\x7b\"product\": \"A\", \"pages\": [1]\x7d, \x7b\"product\": \"A\", \"pages\": [1]\x7d]".toList

/-- Boundary with string confidence `"0.59"`. -/
def resp059 : List Char := "[\x7b\"pages\": [1], \"confidence\": \"0.59\"\x7d]".toList

/-- Boundary with string confidence `"0.6"`. -/
def resp06 : List Char := "[\x7b\"pages\": [1], \"confidence\": \"0.6\"\x7d]".toList

/-- Boundary listing only the out-of-range page 99. -/
def resp99 : List Char := "[\x7b\"product\": \"B\", \"pages\": [99]\x7d]".toList

/-- Decoded form of the object in `respGoodOnly`. -/
def jA : Json := Json.obj [("product", Json.str "A"), ("pages", Json.arr [Json.num 1])]

/-- Normalized record produced from `jA` (default confidence 0.7). -/
def bA : Boundary :=
  { product := Json.str "A", pages := [1], confidence := 7 / 10, reason := Json.str "" }

end Pipeline

/-! ## Claim theorems -/

/-- **C1** (amended): during materialization each boundary's page list is
converted from 1-indexed to 0-indexed, filtered to the valid range
`[0, total_pages-1]`, and sorted ascending with duplicates retained (the
code performs no deduplication); the output contains exactly the pages of
that resulting list (same multiset, ascending order); in particular pages
`[3,5,4]` on a 10-page document materialize to the source pages with
0-indexed numbers 2, 3, 4 in that order and no others. -/
theorem validPages_sorted_filtered_roundtrip (total : Nat) (l : List Int) :
    (Pipeline.validPages total l).Sorted (· ≤ ·) ∧
    (∀ x : Nat, List.count x (Pipeline.validPages total l) =
      List.count x ((l.filter (fun p => decide (0 < p) && decide (p ≤ (total : Int)))).map
        (fun p => (p - 1).toNat))) ∧
    Pipeline.extractSheetsToPdfModel 10 (fun _ => false) [Pipeline.bPages [3, 5, 4]] =
      Except.ok [[2, 3, 4]] :=
  ⟨List.sorted_insertionSort _ _, fun x => (List.perm_insertionSort _ _).count_eq x, rfl⟩

/-- **C1** counterexample: the claim's "deduplicated" step does not happen.
A boundary with pages `[3,3]` on a 10-page document materializes an output
that copies source page 2 (0-indexed) twice, not the one-element set. -/
theorem c1_counterexample :
    Pipeline.extractSheetsToPdfModel 10 (fun _ => false) [Pipeline.bPages [3, 3]] =
      Except.ok [[2, 2]] ∧ ([[2, 2]] : List (List Nat)) ≠ [[2]] :=
  ⟨rfl, by decide⟩

/-- **C2** (amended): the boundary parser is total by construction (every
raised exception is caught by the outermost handler); if no `[`...`]`
delimiter pair exists, or the delimited substring fails to decode as JSON,
the result is `[]`; and non-object elements of a decoded array are skipped
individually. (Objects whose `pages` value makes the integer-coercion loop
raise abort the whole parse to `[]` instead — see the counterexample.) -/
theorem parse_boundaries_degrades_gracefully (t : ℚ) (r : List Char) (j : Json)
    (rest : List Json) :
    (Pipeline.findIdxChar '[' r = none → Pipeline.parseBoundaries t r = []) ∧
    (∀ s e, Pipeline.findIdxChar '[' r = some s → Pipeline.rfindIdxChar ']' r = some e →
      Json.loads ((r.drop s).take (e + 1 - s)) = none → Pipeline.parseBoundaries t r = []) ∧
    ((∀ fs, j ≠ Json.obj fs) → Pipeline.parseElems t (j :: rest) = Pipeline.parseElems t rest) := by
  refine ⟨?_, ?_, ?_⟩
  · intro h
    simp [Pipeline.parseBoundaries, h]
  · intro s e hs he hl
    simp only [Pipeline.parseBoundaries, hs, he]
    split
    · rw [hl]
    · rfl
  · intro h
    cases j with
    | obj fs => exact absurd rfl (h fs)
    | null => rfl
    | bool b => rfl
    | num q => rfl
    | str s => rfl
    | arr xs => rfl

/-- **C2** witness: the no-bracket response parses to the empty list. -/
theorem parse_boundaries_degrades_gracefully_witness :
    Pipeline.parseBoundaries (6 / 10) Pipeline.respNoBrackets = [] :=
  (parse_boundaries_degrades_gracefully (6 / 10) Pipeline.respNoBrackets Json.null []).1 rfl

/-- **C2** counterexample: a syntactically valid JSON array whose second
element is an object with `"pages": "5"` (a string decoding to a JSON
number) makes the whole parse fail: the `TypeError` from iterating an
`int` is caught only by the outermost handler, so even the well-formed
first boundary is discarded and the result is empty. -/
theorem c2_counterexample :
    (Pipeline.parseBoundaries (6 / 10) Pipeline.respGoodOnly).length = 1 ∧
    (Pipeline.parseBoundaries (6 / 10) Pipeline.respGoodThenBadPages).length = 0 :=
  ⟨rfl, rfl⟩

/-- **C3** (amended): the parser performs no set construction and does not
collapse duplicates: an element that normalizes to a boundary, repeated in
the source array, yields the identical boundary repeated in the output. -/
theorem parse_duplicates_preserved (t : ℚ) (j : Json) (b : Pipeline.Boundary)
    (rest : List Json) (out : List Pipeline.Boundary)
    (hj : Pipeline.processElem t j = Except.ok (some b))
    (hr : Pipeline.parseElems t rest = Except.ok out) :
    Pipeline.parseElems t (j :: j :: rest) = Except.ok (b :: b :: out) := by
  simp [Pipeline.parseElems, hj, hr]

/-- **C3** witness: duplicating one concrete well-formed object duplicates
its boundary. -/
theorem parse_duplicates_preserved_witness :
    Pipeline.parseElems (6 / 10) [Pipeline.jA, Pipeline.jA] =
      Except.ok [Pipeline.bA, Pipeline.bA] :=
  parse_duplicates_preserved (6 / 10) Pipeline.jA Pipeline.bA [] [] rfl rfl

/-- **C3** counterexample: a response containing two literally identical
boundary objects (same product string, same page list) parses to two
literally identical boundaries; nothing is collapsed. -/
theorem c3_counterexample :
    (Pipeline.parseBoundaries (6 / 10) Pipeline.respDup).length = 2 ∧
    (Pipeline.parseBoundaries (6 / 10) Pipeline.respDup)[0]? =
      (Pipeline.parseBoundaries (6 / 10) Pipeline.respDup)[1]? :=
  ⟨rfl, rfl⟩

/-- **C4** (amended): `extract_sheets_to_pdf` installs no per-sheet handler
around `new_doc.save`, so a failure writing an individual output PDF aborts
the entire materialization: the exception propagates out of the method,
boundaries after the failing one produce no output files, and no path list
is returned at all. -/
theorem save_failure_aborts_batch (total : Nat) (f : Nat → Bool) (i : Nat)
    (b : Pipeline.Boundary) (rest : List Pipeline.Boundary)
    (hv : Pipeline.validPages total b.pages ≠ []) (hf : f i = true) :
    Pipeline.extractLoop total f i (b :: rest) = Except.error () := by
  have hbp : b.pages.isEmpty = false := by
    cases hp : b.pages with
    | nil => exact absurd (by rw [hp]; rfl : Pipeline.validPages total b.pages = []) hv
    | cons a l => rfl
  have hve : (Pipeline.validPages total b.pages).isEmpty = false := by
    cases hq : Pipeline.validPages total b.pages with
    | nil => exact absurd hq hv
    | cons a l => rfl
  simp [Pipeline.extractLoop, hbp, hve, hf]

/-- **C4** witness: a failing save on a valid one-sheet batch raises. -/
theorem save_failure_aborts_batch_witness :
    Pipeline.extractLoop 10 (fun _ => true) 0 [Pipeline.bPages [1]] = Except.error () :=
  save_failure_aborts_batch 10 (fun _ => true) 0 (Pipeline.bPages [1]) [] (by decide) rfl

/-- **C4** counterexample: with two valid sheets and a write failure on the
first, the whole call raises (`Except.error`), so the second sheet produces
no output and no partial path list is returned — though the same batch with
no failure materializes both sheets. The claimed partial-success policy
does not exist in the code. -/
theorem c4_counterexample :
    Pipeline.extractSheetsToPdfModel 10 (fun i => i == 0)
      [Pipeline.bPages [1], Pipeline.bPages [2]] = Except.error () ∧
    Pipeline.extractSheetsToPdfModel 10 (fun _ => false)
      [Pipeline.bPages [1], Pipeline.bPages [2]] = Except.ok [[0], [1]] :=
  ⟨rfl, rfl⟩

/-- **C5** (amended): the page-stamped copy written by
`document_processor.main` is what the OCR/LLM stage references
(pipeline_modal.py lines 180-182), but materialization reopens and copies
output pages from the original `pdf_path` (line 286), not the stamped
copy. -/
theorem stamped_copy_data_flow (outputDir pdfPath : String) :
    (Pipeline.extractRunPaths outputDir pdfPath).ocrInput =
      (Pipeline.extractRunPaths outputDir pdfPath).stampedCopy ∧
    (Pipeline.extractRunPaths outputDir pdfPath).materializationSource = pdfPath :=
  ⟨rfl, rfl⟩

/-- **C5** counterexample: on the repository's own example catalog path and
the configured output directory, the document materialization copies pages
from is not the stamped copy. -/
theorem c5_counterexample :
    (Pipeline.extractRunPaths "../data/output"
        "data/input/Catalogue-Tertu-Equipements-1-10.pdf").materializationSource ≠
      (Pipeline.extractRunPaths "../data/output"
        "data/input/Catalogue-Tertu-Equipements-1-10.pdf").stampedCopy := by
  decide

/-- **C6**: the confidence of a decoded object is the numeric coercion of
its `confidence` value, defaulting to `0.7` when the key is absent or the
coercion raises; an object whose confidence is strictly below the threshold
is dropped (skipped), one whose confidence is at least the threshold is
kept with that confidence; concretely, at threshold `0.6` a boundary with
confidence `"0.59"` is dropped and one with `"0.6"` is kept. -/
theorem confidence_coercion_threshold (t : ℚ) (fs : List (String × Json)) :
    (dictLookup fs "confidence" = none → Pipeline.confidenceOf fs = 7 / 10) ∧
    (∀ v, dictLookup fs "confidence" = some v → pyFloat v = none →
      Pipeline.confidenceOf fs = 7 / 10) ∧
    (Pipeline.confidenceOf fs < t →
      Pipeline.processElem t (Json.obj fs) = Except.ok none) ∧
    (∀ pgs, t ≤ Pipeline.confidenceOf fs → Pipeline.pagesOutcome fs = Except.ok pgs →
      Pipeline.processElem t (Json.obj fs) = Except.ok (some
        { product := (dictLookup fs "product").getD (Json.str "Unnamed Product")
          pages := pgs
          confidence := Pipeline.confidenceOf fs
          reason := (dictLookup fs "reason").getD (Json.str "") })) ∧
    ((Pipeline.parseBoundaries (6 / 10) Pipeline.resp059).length = 0 ∧
      (Pipeline.parseBoundaries (6 / 10) Pipeline.resp06).map Pipeline.Boundary.confidence =
        [6 / 10]) := by
  refine ⟨?_, ?_, ?_, ?_, rfl, rfl⟩
  · intro h
    simp [Pipeline.confidenceOf, h]
  · intro v hv hc
    simp [Pipeline.confidenceOf, hv, hc]
  · intro hlt
    simp [Pipeline.processElem, not_le.mpr hlt]
  · intro pgs hle hp
    simp [Pipeline.processElem, hle, hp]

/-- **C6** witness: with no `confidence` key the default `0.7` is below
threshold `1`, so the object is dropped. -/
theorem confidence_coercion_threshold_witness :
    Pipeline.processElem 1 (Json.obj []) = Except.ok none :=
  (confidence_coercion_threshold 1 []).2.2.1 (by decide)

/-- Python `int` on an integer-valued number is the identity. -/
theorem ratTrunc_intCast (k : Int) : ratTrunc (k : ℚ) = k := by
  unfold ratTrunc
  split
  · exact Int.floor_intCast k
  · have h : -(k : ℚ) = ((-k : Int) : ℚ) := by push_cast; ring
    rw [h, Int.floor_intCast, neg_neg]

/-- The integer-coercion loop maps a list of integer-valued JSON numbers to
exactly those integers. -/
theorem coercePages_intCast (ks : List Int) :
    Pipeline.coercePages (ks.map (fun k : Int => Json.num (k : ℚ))) = Except.ok ks := by
  unfold Pipeline.coercePages
  have h : optMapList pyInt (ks.map (fun k : Int => Json.num (k : ℚ))) = some ks := by
    induction ks with
    | nil => rfl
    | cons k l ih =>
      have hk : pyInt (Json.num (k : ℚ)) = some k := by
        simp [pyInt, ratTrunc_intCast]
      simp only [List.map_cons, optMapList, hk, ih]
  rw [h]

/-- **C7**: the `pages` value of a kept record is accepted as a native list
(coerced elementwise to integers) or as a string: a string is first decoded
as JSON; on failure it is split on commas with each token parsed as an
integer; if that also fails the page list is `[]`. `pagesFromField` takes
no page-count argument, and the concrete out-of-range page 99 survives the
parse stage unchanged: no range check happens here. -/
theorem pages_value_semantics (s : String) (ns ks : List Int) :
    Pipeline.pagesFromField (Json.arr (ks.map (fun k : Int => Json.num (k : ℚ)))) = Except.ok ks ∧
    (Json.loads s.toList = some (Json.arr (ks.map (fun k : Int => Json.num (k : ℚ)))) →
      Pipeline.pagesFromField (Json.str s) = Except.ok ks) ∧
    (Json.loads s.toList = none → optMapList pyIntOfChars (splitComma s.toList) = some ns →
      Pipeline.pagesFromField (Json.str s) = Except.ok ns) ∧
    (Json.loads s.toList = none → optMapList pyIntOfChars (splitComma s.toList) = none →
      Pipeline.pagesFromField (Json.str s) = Except.ok []) ∧
    (Pipeline.parseBoundaries (6 / 10) Pipeline.resp99).map Pipeline.Boundary.pages =
      [[99]] := by
  refine ⟨coercePages_intCast ks, ?_, ?_, ?_, rfl⟩
  · intro h
    simp only [Pipeline.pagesFromField]
    rw [h]
    exact coercePages_intCast ks
  · intro h1 h2
    simp only [Pipeline.pagesFromField]
    rw [h1, h2]
  · intro h1 h2
    simp only [Pipeline.pagesFromField]
    rw [h1, h2]

/-- **C7** witness: the string `"[1,2]"` decodes as a JSON list and yields
pages `[1, 2]`. -/
theorem pages_value_semantics_witness :
    Pipeline.pagesFromField (Json.str "[1,2]") = Except.ok [1, 2] :=
  (pages_value_semantics "[1,2]" [] [1, 2]).2.1 rfl

/-- **C8**: during materialization a page value outside `[1, total_pages]`
is silently dropped by the validity filter, and a boundary whose page list
becomes empty after filtering is skipped — the loop moves to the next sheet
with no error and no output file for it. -/
theorem out_of_range_pages_skipped (total : Nat) (f : Nat → Bool) (i : Nat)
    (b : Pipeline.Boundary) (rest : List Pipeline.Boundary) (p : Int) (l : List Int) :
    (¬ (0 < p ∧ p ≤ (total : Int)) →
      Pipeline.validPages total (p :: l) = Pipeline.validPages total l) ∧
    (Pipeline.validPages total b.pages = [] →
      Pipeline.extractLoop total f i (b :: rest) = Pipeline.extractLoop total f (i + 1) rest) := by
  constructor
  · intro hp
    have hc : (decide (0 < p) && decide (p ≤ (total : Int))) = false := by
      by_cases h1 : 0 < p
      · have h2 : ¬ p ≤ (total : Int) := fun h2 => hp ⟨h1, h2⟩
        simp [h2]
      · simp [h1]
    simp [Pipeline.validPages, List.filter_cons, hc]
  · intro hv
    cases hb : b.pages.isEmpty with
    | true => simp [Pipeline.extractLoop, hb]
    | false => simp [Pipeline.extractLoop, hb, hv]

/-- **C8** witness: a boundary listing only page 99 on a 10-page document
is skipped without error and produces no output. -/
theorem out_of_range_pages_skipped_witness :
    Pipeline.extractLoop 10 (fun _ => false) 0 [Pipeline.bPages [99]] = Except.ok [] :=
  ((out_of_range_pages_skipped 10 (fun _ => false) 0 (Pipeline.bPages [99]) [] 99 []).2
    (by decide)).trans rfl

/-- **C9**: parsing is a pure function (re-parsing the same response with
the same threshold yields an identical result), and when the normalization
loop completes, its output is exactly the order-preserving `filterMap` of
the decoded source array — boundaries appear in source-array order with no
re-sorting. -/
theorem parse_deterministic_order_preserving (t : ℚ) (r : List Char) (xs : List Json)
    (out : List Pipeline.Boundary) (h : Pipeline.parseElems t xs = Except.ok out) :
    Pipeline.parseBoundaries t r = Pipeline.parseBoundaries t r ∧
    out = xs.filterMap (Pipeline.normalizeOne t) := by
  refine ⟨rfl, ?_⟩
  induction xs generalizing out with
  | nil =>
    simp only [Pipeline.parseElems] at h
    injection h with h
    subst h
    rfl
  | cons j rest ih =>
    simp only [Pipeline.parseElems] at h
    rw [List.filterMap_cons]
    cases hj : Pipeline.processElem t j with
    | error e =>
      rw [hj] at h
      simp at h
    | ok ob =>
      rw [hj] at h
      cases ob with
      | none =>
        have hn : Pipeline.normalizeOne t j = none := by
          simp [Pipeline.normalizeOne, hj]
        rw [hn]
        exact ih out h
      | some b =>
        have hn : Pipeline.normalizeOne t j = some b := by
          simp [Pipeline.normalizeOne, hj]
        rw [hn]
        cases hr : Pipeline.parseElems t rest with
        | error e =>
          rw [hr] at h
          simp at h
        | ok bs =>
          rw [hr] at h
          injection h with h
          subst h
          rw [ih bs hr]

/-- **C9** witness: the one-object response at its parsed output. -/
theorem parse_deterministic_order_preserving_witness :
    Pipeline.parseBoundaries (6 / 10) Pipeline.respGoodOnly =
      Pipeline.parseBoundaries (6 / 10) Pipeline.respGoodOnly ∧
    [Pipeline.bA] = [Pipeline.jA].filterMap (Pipeline.normalizeOne (6 / 10)) :=
  parse_deterministic_order_preserving (6 / 10) Pipeline.respGoodOnly [Pipeline.jA]
    [Pipeline.bA] rfl

/-- Inversion of `processElem` on a kept record: the element was an object,
its confidence met the threshold, and the record's fields hold the decoded
`product`/`reason` values or their defaults. -/
theorem processElem_ok_some (t : ℚ) (j : Json) (b : Pipeline.Boundary)
    (h : Pipeline.processElem t j = Except.ok (some b)) :
    ∃ fs, j = Json.obj fs ∧ t ≤ Pipeline.confidenceOf fs ∧
      b.confidence = Pipeline.confidenceOf fs ∧
      b.product = (dictLookup fs "product").getD (Json.str "Unnamed Product") ∧
      b.reason = (dictLookup fs "reason").getD (Json.str "") := by
  cases j with
  | obj fs =>
    simp only [Pipeline.processElem] at h
    by_cases hle : t ≤ Pipeline.confidenceOf fs
    · rw [if_pos hle] at h
      cases hp : Pipeline.pagesOutcome fs with
      | error e =>
        rw [hp] at h
        simp at h
      | ok pgs =>
        rw [hp] at h
        injection h with h
        injection h with h
        exact ⟨fs, rfl, hle, by rw [← h], by rw [← h], by rw [← h]⟩
    · rw [if_neg hle] at h
      simp at h
  | null => simp [Pipeline.processElem] at h
  | bool v => simp [Pipeline.processElem] at h
  | num q => simp [Pipeline.processElem] at h
  | str s => simp [Pipeline.processElem] at h
  | arr l => simp [Pipeline.processElem] at h

/-- **C10**: every record produced by the normalization loop is a
four-field boundary (`product`, `pages`, `confidence`, `reason` — the
`Boundary` structure has exactly these fields, with `pages : List Int` so
all page entries are integers by construction) whose confidence is at least
the threshold, whose `product` is the decoded value or the placeholder
`"Unnamed Product"`, and whose `reason` is the decoded value or `""`. -/
theorem parse_output_invariant (t : ℚ) (xs : List Json) (out : List Pipeline.Boundary)
    (h : Pipeline.parseElems t xs = Except.ok out) :
    ∀ b ∈ out, t ≤ b.confidence ∧
      ∃ fs, Json.obj fs ∈ xs ∧
        b.confidence = Pipeline.confidenceOf fs ∧
        b.product = (dictLookup fs "product").getD (Json.str "Unnamed Product") ∧
        b.reason = (dictLookup fs "reason").getD (Json.str "") := by
  induction xs generalizing out with
  | nil =>
    simp only [Pipeline.parseElems] at h
    injection h with h
    subst h
    intro b hb
    exact absurd hb (List.not_mem_nil b)
  | cons j rest ih =>
    simp only [Pipeline.parseElems] at h
    cases hj : Pipeline.processElem t j with
    | error e =>
      rw [hj] at h
      simp at h
    | ok ob =>
      rw [hj] at h
      cases ob with
      | none =>
        intro b hb
        obtain ⟨hc, fs, hmem, h1, h2, h3⟩ := ih out h b hb
        exact ⟨hc, fs, List.mem_cons_of_mem j hmem, h1, h2, h3⟩
      | some b0 =>
        cases hr : Pipeline.parseElems t rest with
        | error e =>
          rw [hr] at h
          simp at h
        | ok bs =>
          rw [hr] at h
          injection h with h
          subst h
          intro b hb
          rcases List.mem_cons.mp hb with rfl | hbs
          · obtain ⟨fs, hjfs, hle, hcf, hprod, hreason⟩ := processElem_ok_some t j b hj
            refine ⟨by rw [hcf]; exact hle, fs, ?_, hcf, hprod, hreason⟩
            rw [← hjfs]
            exact List.mem_cons_self j rest
          · obtain ⟨hc, fs, hmem, h1, h2, h3⟩ := ih bs hr b hbs
            exact ⟨hc, fs, List.mem_cons_of_mem j hmem, h1, h2, h3⟩

/-- **C10** witness: the invariant at the concrete one-object array. -/
theorem parse_output_invariant_witness :
    (6 : ℚ) / 10 ≤ Pipeline.bA.confidence ∧
      ∃ fs, Json.obj fs ∈ [Pipeline.jA] ∧
        Pipeline.bA.confidence = Pipeline.confidenceOf fs ∧
        Pipeline.bA.product = (dictLookup fs "product").getD (Json.str "Unnamed Product") ∧
        Pipeline.bA.reason = (dictLookup fs "reason").getD (Json.str "") :=
  parse_output_invariant (6 / 10) [Pipeline.jA] [Pipeline.bA] (by rfl) Pipeline.bA
    (List.mem_cons_self Pipeline.bA [])
